import Mathlib

/-!
Verification development for the agent-memories worker (src/src/index.ts).

The worker stores Memory records as pretty-printed JSON blobs in an R2
bucket, triggers a best-effort AI-Search reindex after every mutation, and
normalizes provider search results back into Memory values.  This file
embeds the data model and the operations shallowly: machine-external
builtins (the clock, crypto.randomUUID, the R2 binding, the AI-Search
binding and the Cloudflare REST endpoint) are modelled as fields of an
explicit environment value; JSON.stringify / JSON.parse are modelled
concretely by an executable serializer and a fuel-based JSON parser over
character lists.
-/

/-- Provenance of a Memory: the `source` union type `'user' | 'auto'` of
`interface Memory` in the source. -/
inductive Source where
  | user
  | auto
deriving DecidableEq, Repr

/-- The `Memory` interface: the sole persisted entity. -/
structure Memory where
  id : String
  content : String
  tags : List String
  source : Source
  createdAt : String
deriving DecidableEq, Repr

/-- A search hit: `Memory & \x7b score: number \x7d` as produced by
`searchMemories`.  The relevance score (a JS number) is modelled as a
rational, since the code only ever carries it through unchanged. -/
structure ScoredMemory where
  id : String
  content : String
  tags : List String
  source : Source
  createdAt : String
  score : ℚ
deriving DecidableEq, Repr

/-- JSON values as produced by `JSON.parse`.  Number lexemes are kept as
raw character lists: the code never reads a numeric field, so no numeric
interpretation is needed. -/
inductive JsonValue where
  | null
  | bool (b : Bool)
  | num (lexeme : List Char)
  | str (s : List Char)
  | arr (elems : List JsonValue)
  | obj (members : List (List Char × JsonValue))

/-- Lowercase hex digit, as used by the `\uXXXX` escapes that
`JSON.stringify` emits for control characters. -/
def hexDigit (n : Nat) : Char :=
  if n < 10 then Char.ofNat (48 + n) else Char.ofNat (87 + n)

/-- Value of one hex digit accepted by `JSON.parse` (either case). -/
def hexVal? (c : Char) : Option Nat :=
  if '0' ≤ c ∧ c ≤ '9' then some (c.toNat - 48)
  else if 'a' ≤ c ∧ c ≤ 'f' then some (c.toNat - 87)
  else if 'A' ≤ c ∧ c ≤ 'F' then some (c.toNat - 55)
  else none

/-- How `JSON.stringify` renders one character inside a string literal:
the two mandatory escapes, the five short control escapes, `\u00XX` for
the remaining control characters, and every other character verbatim. -/
def escapeChar (c : Char) : List Char :=
  if c = '"' then ['\\', '"']
  else if c = '\\' then ['\\', '\\']
  else if c = '\x08' then ['\\', 'b']
  else if c = '\x09' then ['\\', 't']
  else if c = '\x0a' then ['\\', 'n']
  else if c = '\x0c' then ['\\', 'f']
  else if c = '\x0d' then ['\\', 'r']
  else if c.toNat < 32 then ['\\', 'u', '0', '0', hexDigit (c.toNat / 16), hexDigit (c.toNat % 16)]
  else [c]

/-- `JSON.stringify` body of a string literal. -/
def escapeString (s : List Char) : List Char :=
  (s.map escapeChar).flatten

/-- A full JSON string literal: quote, escaped body, quote. -/
def quoteChars (s : List Char) : List Char :=
  '"' :: escapeString s ++ ['"']

/-- `prepend one decoded character to a string-body parse result`. -/
def mapCons (c : Char) : Option (List Char × List Char) → Option (List Char × List Char)
  | some (s, r) => some (c :: s, r)
  | none => none

/-- Four hex digits of a `\uXXXX` escape: their value and the rest. -/
def decodeHex4 : List Char → Option (Nat × List Char)
  | a :: b :: c :: d :: rest =>
    match hexVal? a, hexVal? b, hexVal? c, hexVal? d with
    | some va, some vb, some vc, some vd => some (va * 4096 + vb * 256 + vc * 16 + vd, rest)
    | _, _, _, _ => none
  | _ => none

/-- Outcome of decoding one logical unit of a JSON string body: the
closing quote, one decoded character, or a syntax error. -/
inductive StrStep where
  | close (rest : List Char)
  | emit (c : Char) (rest : List Char)
  | bad
deriving Repr

/-- Decode the escape payload after `\\u`. -/
def uStep (cs2 : List Char) : StrStep :=
  match decodeHex4 cs2 with
  | some (n, cs3) =>
    if 0xD800 ≤ n ∧ n ≤ 0xDBFF then
      match cs3 with
      | '\\' :: 'u' :: cs4 =>
        match decodeHex4 cs4 with
        | some (l, cs5) =>
          if 0xDC00 ≤ l ∧ l ≤ 0xDFFF then
            .emit (Char.ofNat (0x10000 + (n - 0xD800) * 0x400 + (l - 0xDC00))) cs5
          else .bad
        | none => .bad
      | _ => .bad
    else if 0xDC00 ≤ n ∧ n ≤ 0xDFFF then .bad
    else .emit (Char.ofNat n) cs3
  | none => .bad

/-- Decode one escape sequence after the backslash: the named escapes
accepted by `JSON.parse`, or a `\\uXXXX` escape. -/
def escStep : List Char → StrStep
  | [] => .bad
  | e :: cs2 =>
    if e = '"' then .emit '"' cs2
    else if e = '\\' then .emit '\\' cs2
    else if e = '/' then .emit '/' cs2
    else if e = 'b' then .emit '\x08' cs2
    else if e = 'f' then .emit '\x0c' cs2
    else if e = 'n' then .emit '\x0a' cs2
    else if e = 'r' then .emit '\x0d' cs2
    else if e = 't' then .emit '\x09' cs2
    else if e = 'u' then uStep cs2
    else .bad

/-- Decode one logical unit of a JSON string body: the closing quote, an
escape sequence, or a raw character (raw control characters are a syntax
error for `JSON.parse`). -/
def stringStep : List Char → StrStep
  | [] => .bad
  | c :: cs =>
    if c = '"' then .close cs
    else if c = '\\' then escStep cs
    else if c.toNat < 32 then .bad
    else .emit c cs

/-- Body of a JSON string literal, after the opening quote: returns the
decoded characters and the input after the closing quote.  Mirrors the
string grammar `JSON.parse` accepts: the named escapes, `\uXXXX` with
surrogate-pair combination (a lone surrogate, which JS would decode to an
unpaired UTF-16 unit not representable as a Lean character, is rejected),
and raw characters except control characters.  Fuel-based so that the
definition is structural and reduces inside the kernel. -/
def parseStringBody : Nat → List Char → Option (List Char × List Char)
  | 0, _ => none
  | fuel + 1, cs =>
    match stringStep cs with
    | .close rest => some ([], rest)
    | .emit c rest => mapCons c (parseStringBody fuel rest)
    | .bad => none

/-- JSON whitespace skipping (space, tab, newline, carriage return). -/
def skipWs : List Char → List Char
  | [] => []
  | c :: cs => if c = ' ' ∨ c = '\n' ∨ c = '\t' ∨ c = '\r' then skipWs cs else c :: cs

/-- JSON number lexeme per the grammar `JSON.parse` accepts:
`-?(0|[1-9][0-9]*)(.[0-9]+)?([eE][+-]?[0-9]+)?`.  Returns the lexeme and
the rest of the input. -/
def parseNumber (cs : List Char) : Option (List Char × List Char) :=
  let p := match cs with
    | '-' :: t => (['-'], t)
    | _ => (([] : List Char), cs)
  match p.2 with
  | c :: _ =>
    if c.isDigit then
      let q := match p.2 with
        | '0' :: t => (['0'], t)
        | _ => p.2.span Char.isDigit
      let f := match q.2 with
        | '.' :: t =>
          let d := t.span Char.isDigit
          if d.1 = [] then (([] : List Char), q.2) else ('.' :: d.1, d.2)
        | _ => (([] : List Char), q.2)
      let x := match f.2 with
        | e :: t =>
          if e = 'e' ∨ e = 'E' then
            let s := match t with
              | '+' :: u => (['+'], u)
              | '-' :: u => (['-'], u)
              | _ => (([] : List Char), t)
            let d := s.2.span Char.isDigit
            if d.1 = [] then (([] : List Char), f.2) else (e :: s.1 ++ d.1, d.2)
          else (([] : List Char), f.2)
        | _ => (([] : List Char), f.2)
      some (p.1 ++ q.1 ++ f.1 ++ x.1, x.2)
    else none
  | [] => none

/-- The three mutually recursive productions of the JSON value grammar,
folded into one fuel-indexed function so that the recursion is structural
(and hence reduces definitionally): a value, the member list of an object
after its opening brace and whitespace, and the element list of an array
after its opening bracket and whitespace. -/
inductive PMode where
  | value
  | members
  | elements

/-- Recursive-descent JSON parser.  `value` expects the input to start at
a value (whitespace already skipped); `members` / `elements` expect the
input to start at the first member key / element. -/
def parseCore : Nat → PMode → List Char → Option (JsonValue × List Char)
  | 0, _, _ => none
  | fuel + 1, .value, cs =>
    match cs with
    | [] => none
    | '"' :: cs1 => (parseStringBody (cs1.length + 1) cs1).map (fun p => (.str p.1, p.2))
    | '{' :: cs1 =>
      match skipWs cs1 with
      | '}' :: r => some (.obj [], r)
      | cs2 => parseCore fuel .members cs2
    | '[' :: cs1 =>
      match skipWs cs1 with
      | ']' :: r => some (.arr [], r)
      | cs2 => parseCore fuel .elements cs2
    | 't' :: cs1 =>
      match cs1 with
      | 'r' :: 'u' :: 'e' :: r => some (.bool true, r)
      | _ => none
    | 'f' :: cs1 =>
      match cs1 with
      | 'a' :: 'l' :: 's' :: 'e' :: r => some (.bool false, r)
      | _ => none
    | 'n' :: cs1 =>
      match cs1 with
      | 'u' :: 'l' :: 'l' :: r => some (.null, r)
      | _ => none
    | cs => (parseNumber cs).map (fun p => (.num p.1, p.2))
  | fuel + 1, .members, cs =>
    match cs with
    | '"' :: cs1 =>
      match parseStringBody (cs1.length + 1) cs1 with
      | some (key, cs2) =>
        match skipWs cs2 with
        | ':' :: cs3 =>
          match parseCore fuel .value (skipWs cs3) with
          | some (v, cs4) =>
            match skipWs cs4 with
            | ',' :: cs5 =>
              match parseCore fuel .members (skipWs cs5) with
              | some (.obj ms, r) => some (.obj ((key, v) :: ms), r)
              | _ => none
            | '}' :: cs5 => some (.obj [(key, v)], cs5)
            | _ => none
          | none => none
        | _ => none
      | none => none
    | _ => none
  | fuel + 1, .elements, cs =>
    match parseCore fuel .value cs with
    | some (v, cs2) =>
      match skipWs cs2 with
      | ',' :: cs3 =>
        match parseCore fuel .elements (skipWs cs3) with
        | some (.arr vs, r) => some (.arr (v :: vs), r)
        | _ => none
      | ']' :: cs3 => some (.arr [v], cs3)
      | _ => none
    | none => none

/-- `JSON.parse`: skip leading whitespace, parse one value, require only
whitespace after it.  `none` models a thrown `SyntaxError`. -/
def jsonParse (s : String) : Option JsonValue :=
  match parseCore (s.data.length + 1) .value (skipWs s.data) with
  | some (v, rest) => if skipWs rest = [] then some v else none
  | none => none

/-- Render of a `Source` value, as serialized into the blob. -/
def sourceChars : Source → List Char
  | .user => ['u', 's', 'e', 'r']
  | .auto => ['a', 'u', 't', 'o']

/-- String form of a `Source` value. -/
def sourceString (s : Source) : String :=
  String.mk (sourceChars s)

/-- The characters between the array opening and the first tag in the
2-space pretty-printing of `JSON.stringify(memory, null, 2)`, and between
consecutive tags / before the closing bracket, are fixed.  `tagsRest`
renders the second and later tags, each preceded by a comma, a newline
and the 4-space element indent. -/
def tagsRest : List String → List Char
  | [] => []
  | t :: ts => ',' :: '\n' :: ' ' :: ' ' :: ' ' :: ' ' :: quoteChars t.data ++ tagsRest ts

/-- Pretty-printed render of the `tags` array at depth one:
`[]` when empty, otherwise one element per line at indent 4 with the
closing bracket at indent 2. -/
def tagsChars : List String → List Char
  | [] => ['[', ']']
  | t :: ts =>
    '[' :: '\n' :: ' ' :: ' ' :: ' ' :: ' ' :: quoteChars t.data ++
      tagsRest ts ++ '\n' :: ' ' :: ' ' :: ']' :: []

/-- Literal segments of `JSON.stringify(memory, null, 2)` around the five
field values, in the insertion order of the object literal built by
`saveMemory` (`id`, `content`, `tags`, `source`, `createdAt`). -/
def sepId : List Char := ['{', '\n', ' ', ' ', '"', 'i', 'd', '"', ':', ' ']

def sepContent : List Char :=
  [',', '\n', ' ', ' ', '"', 'c', 'o', 'n', 't', 'e', 'n', 't', '"', ':', ' ']

def sepTags : List Char := [',', '\n', ' ', ' ', '"', 't', 'a', 'g', 's', '"', ':', ' ']

def sepSource : List Char :=
  [',', '\n', ' ', ' ', '"', 's', 'o', 'u', 'r', 'c', 'e', '"', ':', ' ']

def sepCreatedAt : List Char :=
  [',', '\n', ' ', ' ', '"', 'c', 'r', 'e', 'a', 't', 'e', 'd', 'A', 't', '"', ':', ' ']

def sepEnd : List Char := ['\n', '}']

/-- The exact character stream `JSON.stringify(memory, null, 2)` produces
for a `Memory` value, as written to the bucket by `saveMemory`. -/
def serializeMemoryChars (m : Memory) : List Char :=
  sepId ++ quoteChars m.id.data ++
  sepContent ++ quoteChars m.content.data ++
  sepTags ++ tagsChars m.tags ++
  sepSource ++ quoteChars (sourceChars m.source) ++
  sepCreatedAt ++ quoteChars m.createdAt.data ++ sepEnd

/-- The stored blob for a Memory: `JSON.stringify(memory, null, 2)`. -/
def serializeMemory (m : Memory) : String :=
  String.mk (serializeMemoryChars m)

/-- The JSON value `JSON.parse` recovers from a serialized Memory. -/
def memoryJson (m : Memory) : JsonValue :=
  .obj [(['i', 'd'], .str m.id.data),
        (['c', 'o', 'n', 't', 'e', 'n', 't'], .str m.content.data),
        (['t', 'a', 'g', 's'], .arr (m.tags.map (fun t => .str t.data))),
        (['s', 'o', 'u', 'r', 'c', 'e'], .str (sourceChars m.source)),
        (['c', 'r', 'e', 'a', 't', 'e', 'd', 'A', 't'], .str m.createdAt.data)]

/-- Suffix of the serialized-Memory character stream starting at the
`createdAt` member key (proof-side decomposition of the stream). -/
def memStream5 (m : Memory) (rest : List Char) : List Char :=
  '"' :: 'c' :: 'r' :: 'e' :: 'a' :: 't' :: 'e' :: 'd' :: 'A' :: 't' :: '"' :: ':' :: ' ' ::
    ('"' :: (escapeString m.createdAt.data ++ '"' :: ('\n' :: '}' :: rest)))

/-- Suffix starting at the `source` member key. -/
def memStream4 (m : Memory) (rest : List Char) : List Char :=
  '"' :: 's' :: 'o' :: 'u' :: 'r' :: 'c' :: 'e' :: '"' :: ':' :: ' ' ::
    ('"' :: (escapeString (sourceChars m.source) ++ '"' ::
      (',' :: '\n' :: ' ' :: ' ' :: memStream5 m rest)))

/-- Suffix starting at the `tags` member key. -/
def memStream3 (m : Memory) (rest : List Char) : List Char :=
  '"' :: 't' :: 'a' :: 'g' :: 's' :: '"' :: ':' :: ' ' ::
    (tagsChars m.tags ++ (',' :: '\n' :: ' ' :: ' ' :: memStream4 m rest))

/-- Suffix starting at the `content` member key. -/
def memStream2 (m : Memory) (rest : List Char) : List Char :=
  '"' :: 'c' :: 'o' :: 'n' :: 't' :: 'e' :: 'n' :: 't' :: '"' :: ':' :: ' ' ::
    ('"' :: (escapeString m.content.data ++ '"' ::
      (',' :: '\n' :: ' ' :: ' ' :: memStream3 m rest)))

/-- The whole member stream of a serialized Memory, starting at the `id`
member key. -/
def memStream1 (m : Memory) (rest : List Char) : List Char :=
  '"' :: 'i' :: 'd' :: '"' :: ':' :: ' ' ::
    ('"' :: (escapeString m.id.data ++ '"' ::
      (',' :: '\n' :: ' ' :: ' ' :: memStream2 m rest)))

/-- Member lookup in a parsed JSON object.  Later duplicates win, as for
the object `JSON.parse` builds. -/
def jsonLookup (k : List Char) (ms : List (List Char × JsonValue)) : Option JsonValue :=
  ms.foldl (fun acc p => if p.1 = k then some p.2 else acc) none

/-- Decode a parsed JSON array as a list of strings (the `tags` field). -/
def asStrings? : List JsonValue → Option (List String)
  | [] => some []
  | .str s :: rest => (asStrings? rest).map (fun l => String.mk s :: l)
  | _ :: _ => none

/-- Decode a `source` string. -/
def sourceOfChars? : List Char → Option Source
  | ['u', 's', 'e', 'r'] => some .user
  | ['a', 'u', 't', 'o'] => some .auto
  | _ => none

/-- The five member keys of a serialized Memory. -/
def memoryKeys : List (List Char) :=
  [['i', 'd'], ['c', 'o', 'n', 't', 'e', 'n', 't'], ['t', 'a', 'g', 's'],
   ['s', 'o', 'u', 'r', 'c', 'e'], ['c', 'r', 'e', 'a', 't', 'e', 'd', 'A', 't']]

/-- Extraction of a `Memory` from a parsed JSON value.  The TypeScript
source casts the parsed value with `as Memory` and never validates its
shape; a successfully parsed value that does not have exactly the shape
of a serialized Memory therefore produces an ill-typed record at run time
that this typed embedding cannot represent.  `jsonToMemory?` recovers the
record exactly when the value has the serialized-Memory shape (the five
fields, string-typed, tags an array of strings, source in the enum); the
theorems below only ever rely on the branch taken for inputs that are
serialized Memories or that fail `JSON.parse` outright, where the
embedding and the source agree. -/
def jsonToMemory? : JsonValue → Option Memory
  | .obj ms =>
    if ms.all (fun p => decide (p.1 ∈ memoryKeys)) then
      match jsonLookup ['i', 'd'] ms,
            jsonLookup ['c', 'o', 'n', 't', 'e', 'n', 't'] ms,
            jsonLookup ['t', 'a', 'g', 's'] ms,
            jsonLookup ['s', 'o', 'u', 'r', 'c', 'e'] ms,
            jsonLookup ['c', 'r', 'e', 'a', 't', 'e', 'd', 'A', 't'] ms with
      | some (.str i), some (.str c), some (.arr ts), some (.str s), some (.str d) =>
        match asStrings? ts, sourceOfChars? s with
        | some tags, some src => some ⟨String.mk i, String.mk c, tags, src, String.mk d⟩
        | _, _ => none
      | _, _, _, _, _ => none
    else none
  | _ => none

/-- `JSON.parse(text) as Memory`: parse, then read the record. -/
def parseMemoryString (s : String) : Option Memory :=
  (jsonParse s).bind jsonToMemory?

/-- A blob stored in the R2 bucket by `saveMemory`: the body plus the
`httpMetadata.contentType` and `customMetadata` side fields. -/
structure StoredObject where
  body : String
  contentType : String
  customMetadata : List (String × String)
deriving DecidableEq, Repr

/-- The R2 bucket contents, as an association list from key to object. -/
abbrev Bucket := List (String × StoredObject)

/-- `bucket.get(key)`. -/
def bucketGet (b : Bucket) (k : String) : Option StoredObject :=
  (b.find? (fun p => p.1 == k)).map (fun p => p.2)

/-- `bucket.delete(key)`: removes the record if present; no error either
way (R2 delete is naturally idempotent). -/
def bucketDelete (b : Bucket) (k : String) : Bucket :=
  b.filter (fun p => p.1 != k)

/-- `bucket.put(key, body, options)`: overwrites any existing object. -/
def bucketPut (b : Bucket) (k : String) (v : StoredObject) : Bucket :=
  (k, v) :: bucketDelete b k

/-- The parsed JSON body of the Cloudflare `ai-search .. /jobs` response
consumed by `triggerResync`:
`\x7b success: boolean; result?: \x7b id: string \x7d; errors?: Array<\x7b message: string \x7d> \x7d`. -/
structure ResyncApiResponse where
  success : Bool
  result : Option String
  errors : Option (List String)
deriving DecidableEq, Repr

/-- Return value of `triggerResync`:
`\x7b success: boolean; jobId?: string; error?: string \x7d`. -/
structure ResyncResult where
  success : Bool
  jobId : Option String
  error : Option String
deriving DecidableEq, Repr

/-- The request `searchMemories` sends to `autorag.search`. -/
structure SearchRequest where
  query : String
  max_num_results : Int
  rewrite_query : Bool
  score_threshold : ℚ
deriving DecidableEq, Repr

/-- One content chunk of a provider result item. -/
structure ContentChunk where
  type : String
  text : String
deriving DecidableEq, Repr

/-- One item of `AiSearchResult.data`.  The unused `attributes` record is
omitted (the code never reads it). -/
structure SearchItem where
  file_id : String
  filename : String
  score : ℚ
  content : List ContentChunk
deriving DecidableEq, Repr

/-- The provider response shape `AiSearchResult`. -/
structure AiSearchResult where
  object : String
  search_query : String
  data : List SearchItem
deriving DecidableEq, Repr

/-- Observable calls made to the durable store and the two provider
endpoints, recorded in order. -/
inductive Effect where
  | r2Put (key : String)
  | r2Delete (key : String)
  | resyncFetch
  | aiSearch (request : SearchRequest)
deriving DecidableEq, Repr

/-- The ambient environment of one request: the bucket binding plus the
values the machine-external builtins produce during the request — the id
`crypto.randomUUID()` returns, the timestamp `new Date().toISOString()`
returns, the parsed body of the Cloudflare resync response, and the
provider response `autorag.search` returns.  `trace` records the calls
made so far. -/
structure Env where
  bucket : Bucket
  freshId : String
  now : String
  resyncResponse : ResyncApiResponse
  searchResponse : AiSearchResult
  trace : List Effect
deriving DecidableEq, Repr

/-- `result.errors?.[0]?.message || 'Unknown error'`: the first reported
message when present and non-empty (the empty string is falsy in JS),
otherwise the generic fallback. -/
def firstErrorMessage : Option (List String) → String
  | some (m :: _) => if m = "" then "Unknown error" else m
  | _ => "Unknown error"

/-- `triggerResync` (src/src/index.ts lines 352-371): POSTs the reindex
job request and interprets the parsed response body.  A provider-reported
failure (`success: false`) is returned as a normal rejected result, never
thrown; a transport failure (fetch itself rejecting) would propagate
before this interpretation and is outside this function's model. -/
def triggerResync (env : Env) : ResyncResult × Env :=
  let env' := { env with trace := env.trace ++ [.resyncFetch] }
  let r := env.resyncResponse
  if r.success then ({ success := true, jobId := r.result, error := none }, env')
  else ({ success := false, jobId := none, error := some (firstErrorMessage r.errors) }, env')

/-- Key under which a Memory with the given id is stored. -/
def memoryKey (id : String) : String :=
  "memories/" ++ id ++ ".json"

/-- The object `saveMemory` writes for a given Memory. -/
def memoryObject (m : Memory) : StoredObject :=
  { body := serializeMemory m
    contentType := "application/json"
    customMetadata :=
      [("tags", String.intercalate ("," ) m.tags),
       ("source", sourceString m.source),
       ("createdAt", m.createdAt)] }

/-- `saveMemory` (src/src/index.ts lines 195-224): builds the Memory with
a fresh id and the current timestamp, writes the serialized blob durably,
then triggers a resync whose outcome is discarded, and returns the
Memory.  The optional parameters default to `[]` and `'user'` exactly
when the caller passes `undefined`, matching the TypeScript default
parameters. -/
def saveMemory (env : Env) (content : String) (tags : Option (List String))
    (source : Option Source) : Memory × Env :=
  let memory : Memory :=
    { id := env.freshId
      content := content
      tags := tags.getD []
      source := source.getD .user
      createdAt := env.now }
  let key := memoryKey memory.id
  let env1 := { env with
    bucket := bucketPut env.bucket key (memoryObject memory)
    trace := env.trace ++ [.r2Put key] }
  let r := triggerResync env1
  (memory, r.2)

/-- Text recovered from one provider result item: all text-typed content
chunks, in order, joined by newline (src/src/index.ts lines 243-246). -/
def itemText (item : SearchItem) : String :=
  String.intercalate ("\n") ((item.content.filter (fun c => c.type == "text")).map (fun c => c.text))

/-- Normalization of one provider result item (src/src/index.ts lines
242-261): try to read the concatenated text as a serialized Memory and
attach the score; on a parse failure fall back to a synthetic record
with the provider's file id, the raw text, no tags, source `auto` and
the current time. -/
def normalizeItem (now : String) (item : SearchItem) : ScoredMemory :=
  let textContent := itemText item
  match parseMemoryString textContent with
  | some m =>
    { id := m.id, content := m.content, tags := m.tags, source := m.source,
      createdAt := m.createdAt, score := item.score }
  | none =>
    { id := item.file_id, content := textContent, tags := [], source := .auto,
      createdAt := now, score := item.score }

/-- `searchMemories` (src/src/index.ts lines 227-264): issues the
provider search with the limit capped at 50, query rewriting on and the
fixed 0.1 score threshold, then normalizes every result item in order. -/
def searchMemories (env : Env) (query : String) (limit : Int := 5) :
    List ScoredMemory × Env :=
  let request : SearchRequest :=
    { query := query
      max_num_results := min limit 50
      rewrite_query := true
      score_threshold := 1 / 10 }
  let results := env.searchResponse
  let env' := { env with trace := env.trace ++ [.aiSearch request] }
  (results.data.foldl (fun acc item => acc ++ [normalizeItem env.now item]) [], env')

/-- Body of `POST /memories`.  `content` is `none` when the field is
missing from the JSON body (or not a string, which the same REST check
rejects); `tags`/`source` are `none` when absent. -/
structure CreateMemoryRequest where
  content : Option String
  tags : Option (List String)
  source : Option Source
deriving DecidableEq, Repr

/-- Response of the `POST /memories` handler. -/
inductive CreateResponse where
  | validationError (message : String)
  | ok (memory : Memory)
deriving DecidableEq, Repr

/-- Whether a create response is the 400 validation failure. -/
def CreateResponse.isValidationError : CreateResponse → Bool
  | .validationError _ => true
  | .ok _ => false

/-- `POST /memories` (src/src/index.ts lines 64-74): rejects a missing,
non-string or empty `content` with a 400 before touching the store or
the provider; otherwise delegates to `saveMemory`. -/
def postMemories (env : Env) (body : CreateMemoryRequest) : CreateResponse × Env :=
  match body.content with
  | none => (.validationError ("content is required and must be a string"), env)
  | some c =>
    if c = "" then (.validationError ("content is required and must be a string"), env)
    else
      let r := saveMemory env c body.tags body.source
      (.ok r.1, r.2)

/-- An MCP `tools/call` result: `mcpToolResult(id, text, isError)`. -/
structure McpToolResponse where
  text : String
  isError : Bool
deriving DecidableEq, Repr

/-- `tools/call save_memory` (src/src/index.ts lines 301-315): a falsy
`content` yields an error tool result with no store or provider call;
otherwise `saveMemory` runs with the `|| []` / `|| 'user'` defaults and
the tool reports the generated id. -/
def mcpSaveMemory (env : Env) (args : CreateMemoryRequest) : McpToolResponse × Env :=
  match args.content with
  | none => ({ text := "Error: content is required", isError := true }, env)
  | some c =>
    if c = "" then ({ text := "Error: content is required", isError := true }, env)
    else
      let r := saveMemory env c (some (args.tags.getD [])) (some (args.source.getD .user))
      ({ text := "Memory saved successfully with ID: " ++ r.1.id, isError := false }, r.2)

/-- Response of the `GET /memories/search` handler. -/
inductive SearchResponse where
  | validationError (message : String)
  | ok (memories : List ScoredMemory)
deriving DecidableEq, Repr

/-- Whether a search response is the 400 validation failure. -/
def SearchResponse.isValidationError : SearchResponse → Bool
  | .validationError _ => true
  | .ok _ => false

/-- `GET /memories/search` (src/src/index.ts lines 77-88).  The `limit`
query parameter is modelled as the already-parsed integer (`parseInt` is
a JS builtin; a present but non-numeric parameter, which would flow as
NaN, is outside this integer model), `none` when absent, in which case
the handler uses 5.  A missing or empty `q` is rejected before any
provider call. -/
def getMemoriesSearch (env : Env) (q : Option String) (limitParam : Option Int) :
    SearchResponse × Env :=
  let limit := limitParam.getD 5
  match q with
  | none => (.validationError ("Query parameter q is required"), env)
  | some qs =>
    if qs = "" then (.validationError ("Query parameter q is required"), env)
    else
      let r := searchMemories env qs limit
      (.ok r.1, r.2)

/-- `(m.score * 100).toFixed(1)`, for the nonnegative scores the provider
returns; exact JS float formatting is not modelled (no claim reads it). -/
def toFixed1 (x : ℚ) : String :=
  let n : Int := round (x * 10)
  toString (n / 10) ++ "." ++ toString (n % 10)

/-- The numbered list the `search_memories` tool prints
(src/src/index.ts lines 329-334). -/
def formatMemories (ms : List ScoredMemory) : String :=
  String.intercalate ("\n")
    (ms.enum.map (fun p =>
      toString (p.1 + 1) ++ ". " ++ p.2.content ++
      (if p.2.tags.length > 0 then " [" ++ String.intercalate (", ") p.2.tags ++ "]" else "") ++
      " (relevance: " ++ toFixed1 (p.2.score * 100) ++ "%)"))

/-- Arguments of the `search_memories` tool. -/
structure McpSearchArgs where
  query : Option String
  limit : Option Int
deriving DecidableEq, Repr

/-- `tools/call search_memories` (src/src/index.ts lines 317-337): a
falsy `query` yields an error tool result with no provider call; the
limit is `(toolArgs?.limit as number) || 5`, so a missing limit and the
falsy limit 0 both become 5. -/
def mcpSearchMemories (env : Env) (args : McpSearchArgs) : McpToolResponse × Env :=
  match args.query with
  | none => ({ text := "Error: query is required", isError := true }, env)
  | some q =>
    if q = "" then ({ text := "Error: query is required", isError := true }, env)
    else
      let limit : Int := match args.limit with
        | some l => if l = 0 then 5 else l
        | none => 5
      let r := searchMemories env q limit
      if r.1.length = 0 then
        ({ text := "No memories found matching the query.", isError := false }, r.2)
      else
        ({ text := "Found " ++ toString r.1.length ++ " relevant memories:\n\n" ++
            formatMemories r.1, isError := false }, r.2)

/-- Response of the delete handler: `success` is the literal `true` the
handler always returns, `resync` the auxiliary outcome it attaches. -/
inductive ResyncInfo where
  | job (jobId : Option String)
  | failed (error : Option String)
deriving DecidableEq, Repr

/-- `DELETE /memories/:id` response shape. -/
structure DeleteResponse where
  success : Bool
  resync : ResyncInfo
deriving DecidableEq, Repr

/-- `DELETE /memories/:id` (src/src/index.ts lines 102-115): deletes the
blob (idempotent at the store), triggers a resync, and reports success
unconditionally with the resync outcome attached. -/
def deleteMemories (env : Env) (id : String) : DeleteResponse × Env :=
  let key := memoryKey id
  let env1 := { env with
    bucket := bucketDelete env.bucket key
    trace := env.trace ++ [.r2Delete key] }
  let r := triggerResync env1
  ({ success := true
     resync := if r.1.success then .job r.1.jobId else .failed r.1.error }, r.2)

/-- The single-record read path: the durable-store get for the key
derived from the id, followed by the JSON decode — exactly the per-key
read the `GET /memories` handler performs for each listed object (the
worker exposes no single-record route). -/
def getMemoryById (env : Env) (id : String) : Option Memory :=
  (bucketGet env.bucket (memoryKey id)).bind (fun o => parseMemoryString o.body)

/-- The per-key loop of `GET /memories` (src/src/index.ts lines 129-137):
for each listed key, read the blob from the bucket as it is at read time;
a key whose read returns no object is skipped silently; a blob whose body
fails to decode models the `obj.json<Memory>()` throw, failing the whole
call (`none`). -/
def collectMemories (bucket : Bucket) : List String → Option (List Memory)
  | [] => some []
  | k :: ks =>
    match bucketGet bucket k with
    | none => collectMemories bucket ks
    | some obj =>
      match parseMemoryString obj.body with
      | none => none
      | some m => (collectMemories bucket ks).map (fun l => m :: l)

/-- The listing the store returned for `list(\x7b prefix, limit, cursor \x7d)`:
object keys plus the truncation flag and continuation cursor.  Passed in
separately from the bucket because the per-key reads happen after the
listing and may observe a different store state. -/
structure ListedObjects where
  keys : List String
  truncated : Bool
  cursor : Option String
deriving DecidableEq, Repr

/-- `GET /memories` response body. -/
structure ListResponse where
  memories : List Memory
  cursor : Option String
deriving DecidableEq, Repr

/-- `GET /memories` (src/src/index.ts lines 118-143), from the store's
listing onward: collect the readable records and attach the cursor only
when the listing was truncated. -/
def getMemories (bucket : Bucket) (listed : ListedObjects) : Option ListResponse :=
  (collectMemories bucket listed.keys).map
    (fun ms => { memories := ms, cursor := if listed.truncated then listed.cursor else none })

/-- Whether a listed key can be processed without the handler throwing:
either the read misses (the key is skipped) or the blob decodes. -/
def keyReadable (bucket : Bucket) (k : String) : Bool :=
  match bucketGet bucket k with
  | none => true
  | some obj => (parseMemoryString obj.body).isSome

/-- Format check for the timestamps `Date.prototype.toISOString` returns:
`YYYY-MM-DDTHH:MM:SS.mmmZ`.  The clock itself is a machine-external
builtin; the worker's guarantee is that `createdAt` is set once from it
at creation and preserved by storage. -/
def isIsoTimestamp (s : String) : Bool :=
  match s.data with
  | [y1, y2, y3, y4, d1, o1, o2, d2, a1, a2, t, h1, h2, c1, n1, n2, c2, s1, s2, dot, f1, f2, f3, z] =>
    y1.isDigit && y2.isDigit && y3.isDigit && y4.isDigit &&
    (d1 == '-') && o1.isDigit && o2.isDigit && (d2 == '-') &&
    a1.isDigit && a2.isDigit && (t == 'T') &&
    h1.isDigit && h2.isDigit && (c1 == ':') &&
    n1.isDigit && n2.isDigit && (c2 == ':') &&
    s1.isDigit && s2.isDigit && (dot == '.') &&
    f1.isDigit && f2.isDigit && f3.isDigit && (z == 'Z')
  | _ => false

/-! ### Concrete fixtures used by the witnesses -/

/-- The request `searchMemories` issues for a query and an effective
limit: capped count, query rewriting on, fixed 0.1 threshold. -/
def searchReq (q : String) (n : Int) : SearchRequest :=
  { query := q, max_num_results := n, rewrite_query := true, score_threshold := 1 / 10 }

/-- A provider-reported acceptance of a reindex request. -/
def okResponse : ResyncApiResponse := { success := true, result := some "job-1", errors := none }

/-- A provider-reported rejection with one error message. -/
def rejResponse : ResyncApiResponse := { success := false, result := none, errors := some ["boom"] }

/-- An empty provider search response. -/
def emptySearch : AiSearchResult :=
  { object := "vector_store.search_results.page", search_query := "q", data := [] }

/-- A concrete request environment with an empty bucket. -/
def env0 : Env :=
  { bucket := []
    freshId := "id-1"
    now := "2024-01-02T03:04:05.678Z"
    resyncResponse := okResponse
    searchResponse := emptySearch
    trace := [] }

/-- The same environment with the provider rejecting the resync. -/
def envRej : Env := { env0 with resyncResponse := rejResponse }

/-- A concrete memory. -/
def mem0 : Memory := ⟨"id-1", "Always use tabs", ["style"], .user, "2024-01-02T03:04:05.678Z"⟩

/-- The serialized form of `mem0` after its first line: the pretty-printed
blob starts with a lone opening brace. -/
def mem0Rest : String := String.mk ((serializeMemory mem0).data.drop 2)

/-- A provider result item whose text chunks, joined by newline (with a
non-text chunk interleaved), reassemble exactly the serialized `mem0`. -/
def item1 : SearchItem :=
  { file_id := "file-1"
    filename := "memories/id-1.json"
    score := 41 / 50
    content := [⟨"text", "\x7b"⟩, ⟨"image", "ignored"⟩, ⟨"text", mem0Rest⟩] }

/-- A provider result item with plain unstructured text. -/
def item2 : SearchItem :=
  { file_id := "file-2"
    filename := "notes.txt"
    score := 1 / 2
    content := [⟨"text", "hello world"⟩] }

/-- A bucket holding exactly the stored form of `mem0`. -/
def bucket1 : Bucket := [(memoryKey "id-1", memoryObject mem0)]

/-! ### Round-trip of the string escaping through the string parser -/

theorem hexVal?_hexDigit (n : Nat) (h : n < 16) : hexVal? (hexDigit n) = some n := by
  interval_cases n <;> rfl

theorem escapeString_nil : escapeString [] = [] := rfl

theorem escapeString_cons (c : Char) (s : List Char) :
    escapeString (c :: s) = escapeChar c ++ escapeString s := rfl

theorem psb_close (f : Nat) (cs rest : List Char) (h : stringStep cs = .close rest) :
    parseStringBody (f + 1) cs = some ([], rest) := by
  simp only [parseStringBody, h]

theorem psb_emit (f : Nat) (cs : List Char) (c : Char) (rest : List Char)
    (h : stringStep cs = .emit c rest) :
    parseStringBody (f + 1) cs = mapCons c (parseStringBody f rest) := by
  simp only [parseStringBody, h]

theorem stringStep_escQuote (r : List Char) : stringStep ('\\' :: '\"' :: r) = .emit '\"' r := rfl

theorem stringStep_escBack (r : List Char) : stringStep ('\\' :: '\\' :: r) = .emit '\\' r := rfl

theorem stringStep_escB (r : List Char) : stringStep ('\\' :: 'b' :: r) = .emit '\x08' r := rfl

theorem stringStep_escT (r : List Char) : stringStep ('\\' :: 't' :: r) = .emit '\x09' r := rfl

theorem stringStep_escN (r : List Char) : stringStep ('\\' :: 'n' :: r) = .emit '\x0a' r := rfl

theorem stringStep_escF (r : List Char) : stringStep ('\\' :: 'f' :: r) = .emit '\x0c' r := rfl

theorem stringStep_escR (r : List Char) : stringStep ('\\' :: 'r' :: r) = .emit '\x0d' r := rfl

theorem stringStep_lit (c : Char) (r : List Char)
    (h1 : ¬ c = '"') (h2 : ¬ c = '\\') (h3 : ¬ c.toNat < 32) :
    stringStep (c :: r) = .emit c r := by
  simp only [stringStep]
  rw [if_neg h1, if_neg h2, if_neg h3]

theorem stringStep_u00 (d1 d2 : Char) (r : List Char) (v1 v2 : Nat)
    (h1 : hexVal? d1 = some v1) (h2 : hexVal? d2 = some v2) (hlt : v1 * 16 + v2 < 32) :
    stringStep ('\\' :: 'u' :: '0' :: '0' :: d1 :: d2 :: r) =
      .emit (Char.ofNat (v1 * 16 + v2)) r := by
  have z0 : hexVal? '0' = some 0 := rfl
  have hdec : decodeHex4 ('0' :: '0' :: d1 :: d2 :: r) = some (v1 * 16 + v2, r) := by
    simp only [decodeHex4, z0, h1, h2]
    norm_num
  have hs : stringStep ('\\' :: 'u' :: '0' :: '0' :: d1 :: d2 :: r) =
      uStep ('0' :: '0' :: d1 :: d2 :: r) := rfl
  rw [hs]
  simp only [uStep, hdec]
  rw [if_neg (by omega), if_neg (by omega)]

theorem parseStringBody_escape (s : List Char) :
    ∀ fuel rest, (escapeString s).length < fuel →
      parseStringBody fuel (escapeString s ++ '"' :: rest) = some (s, rest) := by
  induction s with
  | nil =>
    intro fuel rest h
    obtain ⟨f, rfl⟩ : ∃ f, fuel = f + 1 := ⟨fuel - 1, by omega⟩
    exact psb_close f _ rest rfl
  | cons c s ih =>
    intro fuel rest h
    rw [escapeString_cons] at h ⊢
    obtain ⟨f, rfl⟩ : ∃ f, fuel = f + 1 := ⟨fuel - 1, by omega⟩
    by_cases h1 : c = '"'
    · subst h1
      have hlen : (escapeString s).length < f := by simp [escapeChar] at h; omega
      rw [show escapeChar '"' = ['\\', '"'] from rfl]
      simp only [List.cons_append, List.nil_append]
      rw [psb_emit f _ '"' _ (stringStep_escQuote _), ih f rest hlen]
      rfl
    · by_cases h2 : c = '\\'
      · subst h2
        have hlen : (escapeString s).length < f := by simp [escapeChar] at h; omega
        rw [show escapeChar '\\' = ['\\', '\\'] from rfl]
        simp only [List.cons_append, List.nil_append]
        rw [psb_emit f _ '\\' _ (stringStep_escBack _), ih f rest hlen]
        rfl
      · by_cases h3 : c = '\x08'
        · subst h3
          have hlen : (escapeString s).length < f := by simp [escapeChar] at h; omega
          rw [show escapeChar '\x08' = ['\\', 'b'] from rfl]
          simp only [List.cons_append, List.nil_append]
          rw [psb_emit f _ '\x08' _ (stringStep_escB _), ih f rest hlen]
          rfl
        · by_cases h4 : c = '\x09'
          · subst h4
            have hlen : (escapeString s).length < f := by simp [escapeChar] at h; omega
            rw [show escapeChar '\x09' = ['\\', 't'] from rfl]
            simp only [List.cons_append, List.nil_append]
            rw [psb_emit f _ '\x09' _ (stringStep_escT _), ih f rest hlen]
            rfl
          · by_cases h5 : c = '\x0a'
            · subst h5
              have hlen : (escapeString s).length < f := by simp [escapeChar] at h; omega
              rw [show escapeChar '\x0a' = ['\\', 'n'] from rfl]
              simp only [List.cons_append, List.nil_append]
              rw [psb_emit f _ '\x0a' _ (stringStep_escN _), ih f rest hlen]
              rfl
            · by_cases h6 : c = '\x0c'
              · subst h6
                have hlen : (escapeString s).length < f := by simp [escapeChar] at h; omega
                rw [show escapeChar '\x0c' = ['\\', 'f'] from rfl]
                simp only [List.cons_append, List.nil_append]
                rw [psb_emit f _ '\x0c' _ (stringStep_escF _), ih f rest hlen]
                rfl
              · by_cases h7 : c = '\x0d'
                · subst h7
                  have hlen : (escapeString s).length < f := by simp [escapeChar] at h; omega
                  rw [show escapeChar '\x0d' = ['\\', 'r'] from rfl]
                  simp only [List.cons_append, List.nil_append]
                  rw [psb_emit f _ '\x0d' _ (stringStep_escR _), ih f rest hlen]
                  rfl
                · by_cases h8 : c.toNat < 32
                  · have hc : escapeChar c =
                        ['\\', 'u', '0', '0', hexDigit (c.toNat / 16), hexDigit (c.toNat % 16)] := by
                      simp [escapeChar, h1, h2, h3, h4, h5, h6, h7, h8]
                    have hlen : (escapeString s).length < f := by rw [hc] at h; simp at h; omega
                    have e1 : hexVal? (hexDigit (c.toNat / 16)) = some (c.toNat / 16) :=
                      hexVal?_hexDigit _ (by omega)
                    have e2 : hexVal? (hexDigit (c.toNat % 16)) = some (c.toNat % 16) :=
                      hexVal?_hexDigit _ (by omega)
                    rw [hc]
                    simp only [List.cons_append, List.nil_append]
                    rw [psb_emit f _ _ _ (stringStep_u00 _ _ _ _ _ e1 e2 (by omega)),
                      ih f rest hlen]
                    have hv : c.toNat / 16 * 16 + c.toNat % 16 = c.toNat := by omega
                    rw [hv, Char.ofNat_toNat]
                    rfl
                  · have hc : escapeChar c = [c] := by
                      simp [escapeChar, h1, h2, h3, h4, h5, h6, h7, h8]
                    have hlen : (escapeString s).length < f := by rw [hc] at h; simp at h; omega
                    rw [hc]
                    simp only [List.cons_append, List.nil_append]
                    rw [psb_emit f _ c _ (stringStep_lit c _ h1 h2 h8), ih f rest hlen]
                    rfl

/-! ### Parsing a serialized Memory back -/

theorem skipWs_quote (z : List Char) : skipWs ('"' :: z) = '"' :: z := rfl

theorem skipWs_comma (z : List Char) : skipWs (',' :: z) = ',' :: z := rfl

theorem skipWs_nl2q (z : List Char) : skipWs ('\n' :: ' ' :: ' ' :: '"' :: z) = '"' :: z := rfl

theorem skipWs_nl4q (z : List Char) :
    skipWs ('\n' :: ' ' :: ' ' :: ' ' :: ' ' :: '"' :: z) = '"' :: z := rfl

theorem pc_value_str (f : Nat) (s rest : List Char) :
    parseCore (f + 1) .value ('"' :: (escapeString s ++ '"' :: rest)) = some (.str s, rest) := by
  have h : parseCore (f + 1) .value ('"' :: (escapeString s ++ '"' :: rest)) =
      (parseStringBody ((escapeString s ++ '"' :: rest).length + 1)
        (escapeString s ++ '"' :: rest)).map (fun p => (JsonValue.str p.1, p.2)) := rfl
  rw [h, parseStringBody_escape s _ rest
    (by simp only [List.length_append, List.length_cons]; omega)]
  rfl

theorem pc_elements_tags (ts : List String) :
    ∀ (t : String) (g : Nat) (rest : List Char), ts.length + 1 ≤ g →
      parseCore (g + 1) .elements
        ('"' :: (escapeString t.data ++ '"' :: (tagsRest ts ++ '\n' :: ' ' :: ' ' :: ']' :: rest))) =
        some (.arr ((t :: ts).map (fun x => .str x.data)), rest) := by
  induction ts with
  | nil =>
    intro t g rest h
    obtain ⟨g', rfl⟩ : ∃ g', g = g' + 1 := ⟨g - 1, by omega⟩
    simp only [tagsRest, List.nil_append]
    conv_lhs => rw [parseCore]
    rw [pc_value_str g' t.data ('\n' :: ' ' :: ' ' :: ']' :: rest)]
    rfl
  | cons t' ts' ih =>
    intro t g rest h
    obtain ⟨g', rfl⟩ : ∃ g', g = g' + 1 := ⟨g - 1, by omega⟩
    have hts : tagsRest (t' :: ts') ++ '\n' :: ' ' :: ' ' :: ']' :: rest =
        ',' :: '\n' :: ' ' :: ' ' :: ' ' :: ' ' ::
          ('"' :: (escapeString t'.data ++ '"' ::
            (tagsRest ts' ++ '\n' :: ' ' :: ' ' :: ']' :: rest))) := by
      simp [tagsRest, quoteChars]
    rw [hts]
    conv_lhs => rw [parseCore]
    rw [pc_value_str g' t.data]
    simp only [skipWs_comma, skipWs_nl4q]
    rw [ih t' g' rest (by simp at h; omega)]
    rfl

theorem pc_value_tags (ts : List String) (g : Nat) (rest : List Char)
    (h : ts.length + 1 ≤ g) :
    parseCore (g + 1) .value (tagsChars ts ++ rest) =
      some (.arr (ts.map (fun x => .str x.data)), rest) := by
  cases ts with
  | nil => rfl
  | cons t ts' =>
    obtain ⟨g', rfl⟩ : ∃ g', g = g' + 1 := ⟨g - 1, by omega⟩
    have hsh : tagsChars (t :: ts') ++ rest =
        '[' :: '\n' :: ' ' :: ' ' :: ' ' :: ' ' ::
          ('"' :: (escapeString t.data ++ '"' ::
            (tagsRest ts' ++ '\n' :: ' ' :: ' ' :: ']' :: rest))) := by
      simp [tagsChars, quoteChars]
    rw [hsh]
    have hstep : ∀ (fz : Nat) (Z : List Char),
        parseCore (fz + 1) .value ('[' :: '\n' :: ' ' :: ' ' :: ' ' :: ' ' :: ('"' :: Z)) =
          parseCore fz .elements ('"' :: Z) := fun _ _ => rfl
    rw [hstep, pc_elements_tags ts' t g' rest (by simp at h; omega)]

theorem pcm_step (f : Nat) (input kcs V after : List Char) (v : JsonValue)
    (hin : input = '"' :: (kcs ++ '"' :: ':' :: ' ' :: V))
    (hkey : parseStringBody ((kcs ++ '"' :: ':' :: ' ' :: V).length + 1)
      (kcs ++ '"' :: ':' :: ' ' :: V) = some (kcs, ':' :: ' ' :: V))
    (hv : parseCore f .value (skipWs V) = some (v, after)) :
    parseCore (f + 1) .members input =
      (match skipWs after with
       | ',' :: cs5 =>
         (match parseCore f .members (skipWs cs5) with
          | some (.obj ms, r) => some (.obj ((kcs, v) :: ms), r)
          | _ => none)
       | '}' :: cs5 => some (.obj [(kcs, v)], cs5)
       | _ => none) := by
  subst hin
  simp only [parseCore, hkey]
  have hsp : skipWs (':' :: ' ' :: V) = ':' :: ' ' :: V := rfl
  have hsp2 : skipWs (' ' :: V) = skipWs V := rfl
  simp only [hsp, hsp2, hv]

theorem skipWs_tagsChars (ts : List String) (x : List Char) :
    skipWs (tagsChars ts ++ x) = tagsChars ts ++ x := by
  cases ts <;> rfl

theorem skipWs_nl2_mem5 (m : Memory) (rest : List Char) :
    skipWs ('\n' :: ' ' :: ' ' :: memStream5 m rest) = memStream5 m rest := rfl

theorem skipWs_nl2_mem4 (m : Memory) (rest : List Char) :
    skipWs ('\n' :: ' ' :: ' ' :: memStream4 m rest) = memStream4 m rest := rfl

theorem skipWs_nl2_mem3 (m : Memory) (rest : List Char) :
    skipWs ('\n' :: ' ' :: ' ' :: memStream3 m rest) = memStream3 m rest := rfl

theorem skipWs_nl2_mem2 (m : Memory) (rest : List Char) :
    skipWs ('\n' :: ' ' :: ' ' :: memStream2 m rest) = memStream2 m rest := rfl

theorem pc_members_mem5 (m : Memory) (g : Nat) (rest : List Char) :
    parseCore (g + 1 + 1) .members (memStream5 m rest) =
      some (.obj [(['c', 'r', 'e', 'a', 't', 'e', 'd', 'A', 't'], .str m.createdAt.data)], rest) := by
  have hv : parseCore (g + 1) .value
      (skipWs ('"' :: (escapeString m.createdAt.data ++ '"' :: ('\n' :: '}' :: rest)))) =
      some (.str m.createdAt.data, '\n' :: '}' :: rest) := by
    rw [skipWs_quote]
    exact pc_value_str g _ _
  have hm : memStream5 m rest = '"' :: (['c', 'r', 'e', 'a', 't', 'e', 'd', 'A', 't'] ++
      '"' :: ':' :: ' ' :: ('"' :: (escapeString m.createdAt.data ++ '"' ::
        ('\n' :: '}' :: rest)))) := rfl
  rw [hm]
  rw [pcm_step (g + 1) _ (['c', 'r', 'e', 'a', 't', 'e', 'd', 'A', 't']) _ _ _ rfl rfl hv]
  rfl

theorem pc_members_mem4 (m : Memory) (g : Nat) (rest : List Char) :
    parseCore (g + 1 + 1 + 1) .members (memStream4 m rest) =
      some (.obj [(['s', 'o', 'u', 'r', 'c', 'e'], .str (sourceChars m.source)),
        (['c', 'r', 'e', 'a', 't', 'e', 'd', 'A', 't'], .str m.createdAt.data)], rest) := by
  have hv : parseCore (g + 1 + 1) .value
      (skipWs ('"' :: (escapeString (sourceChars m.source) ++ '"' ::
        (',' :: '\n' :: ' ' :: ' ' :: memStream5 m rest)))) =
      some (.str (sourceChars m.source), ',' :: '\n' :: ' ' :: ' ' :: memStream5 m rest) := by
    rw [skipWs_quote]
    exact pc_value_str (g + 1) _ _
  have hm : memStream4 m rest = '"' :: (['s', 'o', 'u', 'r', 'c', 'e'] ++
      '"' :: ':' :: ' ' :: ('"' :: (escapeString (sourceChars m.source) ++ '"' ::
        (',' :: '\n' :: ' ' :: ' ' :: memStream5 m rest)))) := rfl
  rw [hm]
  rw [pcm_step (g + 1 + 1) _ (['s', 'o', 'u', 'r', 'c', 'e']) _ _ _ rfl rfl hv]
  simp only [skipWs_comma, skipWs_nl2_mem5]
  rw [pc_members_mem5 m g rest]

theorem pc_members_mem3 (m : Memory) (g : Nat) (rest : List Char)
    (h : m.tags.length ≤ g) :
    parseCore (g + 1 + 1 + 1 + 1) .members (memStream3 m rest) =
      some (.obj [(['t', 'a', 'g', 's'], .arr (m.tags.map (fun x => .str x.data))),
        (['s', 'o', 'u', 'r', 'c', 'e'], .str (sourceChars m.source)),
        (['c', 'r', 'e', 'a', 't', 'e', 'd', 'A', 't'], .str m.createdAt.data)], rest) := by
  have hv : parseCore (g + 1 + 1 + 1) .value
      (skipWs (tagsChars m.tags ++ (',' :: '\n' :: ' ' :: ' ' :: memStream4 m rest))) =
      some (.arr (m.tags.map (fun x => .str x.data)),
        ',' :: '\n' :: ' ' :: ' ' :: memStream4 m rest) := by
    rw [skipWs_tagsChars]
    exact pc_value_tags m.tags (g + 1 + 1) _ (by omega)
  have hm : memStream3 m rest = '"' :: (['t', 'a', 'g', 's'] ++
      '"' :: ':' :: ' ' :: (tagsChars m.tags ++
        (',' :: '\n' :: ' ' :: ' ' :: memStream4 m rest))) := rfl
  rw [hm]
  rw [pcm_step (g + 1 + 1 + 1) _ (['t', 'a', 'g', 's']) _ _ _ rfl rfl hv]
  simp only [skipWs_comma, skipWs_nl2_mem4]
  rw [pc_members_mem4 m g rest]

theorem pc_members_mem2 (m : Memory) (g : Nat) (rest : List Char)
    (h : m.tags.length ≤ g) :
    parseCore (g + 1 + 1 + 1 + 1 + 1) .members (memStream2 m rest) =
      some (.obj [(['c', 'o', 'n', 't', 'e', 'n', 't'], .str m.content.data),
        (['t', 'a', 'g', 's'], .arr (m.tags.map (fun x => .str x.data))),
        (['s', 'o', 'u', 'r', 'c', 'e'], .str (sourceChars m.source)),
        (['c', 'r', 'e', 'a', 't', 'e', 'd', 'A', 't'], .str m.createdAt.data)], rest) := by
  have hv : parseCore (g + 1 + 1 + 1 + 1) .value
      (skipWs ('"' :: (escapeString m.content.data ++ '"' ::
        (',' :: '\n' :: ' ' :: ' ' :: memStream3 m rest)))) =
      some (.str m.content.data, ',' :: '\n' :: ' ' :: ' ' :: memStream3 m rest) := by
    rw [skipWs_quote]
    exact pc_value_str (g + 1 + 1 + 1) _ _
  have hm : memStream2 m rest = '"' :: (['c', 'o', 'n', 't', 'e', 'n', 't'] ++
      '"' :: ':' :: ' ' :: ('"' :: (escapeString m.content.data ++ '"' ::
        (',' :: '\n' :: ' ' :: ' ' :: memStream3 m rest)))) := rfl
  rw [hm]
  rw [pcm_step (g + 1 + 1 + 1 + 1) _ (['c', 'o', 'n', 't', 'e', 'n', 't']) _ _ _ rfl rfl hv]
  simp only [skipWs_comma, skipWs_nl2_mem3]
  rw [pc_members_mem3 m g rest h]

theorem pc_members_mem1 (m : Memory) (g : Nat) (rest : List Char)
    (h : m.tags.length ≤ g) :
    parseCore (g + 1 + 1 + 1 + 1 + 1 + 1) .members (memStream1 m rest) =
      some (memoryJson m, rest) := by
  have hv : parseCore (g + 1 + 1 + 1 + 1 + 1) .value
      (skipWs ('"' :: (escapeString m.id.data ++ '"' ::
        (',' :: '\n' :: ' ' :: ' ' :: memStream2 m rest)))) =
      some (.str m.id.data, ',' :: '\n' :: ' ' :: ' ' :: memStream2 m rest) := by
    rw [skipWs_quote]
    exact pc_value_str (g + 1 + 1 + 1 + 1) _ _
  have hm : memStream1 m rest = '"' :: (['i', 'd'] ++
      '"' :: ':' :: ' ' :: ('"' :: (escapeString m.id.data ++ '"' ::
        (',' :: '\n' :: ' ' :: ' ' :: memStream2 m rest)))) := rfl
  rw [hm]
  rw [pcm_step (g + 1 + 1 + 1 + 1 + 1) _ (['i', 'd']) _ _ _ rfl rfl hv]
  simp only [skipWs_comma, skipWs_nl2_mem2]
  rw [pc_members_mem2 m g rest h]
  rfl

theorem serializeMemoryChars_stream (m : Memory) (rest : List Char) :
    serializeMemoryChars m ++ rest = '{' :: '\n' :: ' ' :: ' ' :: memStream1 m rest := by
  simp [serializeMemoryChars, sepId, sepContent, sepTags, sepSource, sepCreatedAt, sepEnd,
    quoteChars, memStream1, memStream2, memStream3, memStream4, memStream5]

theorem pc_value_lbrace (fz : Nat) (Z : List Char) :
    parseCore (fz + 1) .value ('{' :: '\n' :: ' ' :: ' ' :: '"' :: Z) =
      parseCore fz .members ('"' :: Z) := rfl

theorem pc_value_memory (m : Memory) (fuel : Nat) (rest : List Char)
    (h : m.tags.length + 7 ≤ fuel) :
    parseCore fuel .value (serializeMemoryChars m ++ rest) = some (memoryJson m, rest) := by
  obtain ⟨g, hg, rfl⟩ : ∃ g, m.tags.length ≤ g ∧ fuel = g + 1 + 1 + 1 + 1 + 1 + 1 + 1 :=
    ⟨fuel - 7, by omega, by omega⟩
  rw [serializeMemoryChars_stream]
  have hm1 : memStream1 m rest = '"' :: ('i' :: 'd' :: '"' :: ':' :: ' ' ::
      ('"' :: (escapeString m.id.data ++ '"' ::
        (',' :: '\n' :: ' ' :: ' ' :: memStream2 m rest)))) := rfl
  rw [hm1, pc_value_lbrace, ← hm1, pc_members_mem1 m g rest hg]

theorem quoteChars_length (s : List Char) :
    (quoteChars s).length = (escapeString s).length + 2 := by
  simp [quoteChars]

theorem tagsRest_length (ts : List String) : ts.length ≤ (tagsRest ts).length := by
  induction ts with
  | nil => simp [tagsRest]
  | cons t ts ih => simp [tagsRest, quoteChars_length]; omega

theorem tagsChars_length (ts : List String) : ts.length ≤ (tagsChars ts).length := by
  cases ts with
  | nil => simp [tagsChars]
  | cons t ts =>
    have := tagsRest_length ts
    simp [tagsChars, quoteChars_length]
    omega

theorem serializeMemoryChars_length (m : Memory) :
    m.tags.length + 6 ≤ (serializeMemoryChars m).length := by
  have h1 := tagsChars_length m.tags
  simp [serializeMemoryChars, sepId, sepContent, sepTags, sepSource, sepCreatedAt, sepEnd,
    quoteChars_length]
  omega

theorem skipWs_serializeMemory (m : Memory) :
    skipWs (serializeMemoryChars m ++ []) = serializeMemoryChars m ++ [] := by
  rw [serializeMemoryChars_stream]
  rfl

theorem jsonParse_serializeMemory (m : Memory) :
    jsonParse (serializeMemory m) = some (memoryJson m) := by
  have hdata : (serializeMemory m).data = serializeMemoryChars m ++ [] := by
    simp [serializeMemory]
  rw [jsonParse, hdata, skipWs_serializeMemory,
    pc_value_memory m _ [] (by have := serializeMemoryChars_length m; simp; omega)]
  rfl

theorem asStrings?_map (ts : List String) :
    asStrings? (ts.map (fun t => .str t.data)) = some ts := by
  induction ts with
  | nil => rfl
  | cons t ts ih =>
    have hmk : String.mk t.data = t := rfl
    simp [asStrings?, ih, hmk]

theorem jsonToMemory?_memoryJson (m : Memory) :
    jsonToMemory? (memoryJson m) = some m := by
  obtain ⟨id, content, tags, source, createdAt⟩ := m
  rw [show jsonToMemory? (memoryJson ⟨id, content, tags, source, createdAt⟩) =
      (match asStrings? (tags.map (fun t => .str t.data)),
             sourceOfChars? (sourceChars source) with
       | some tags', some src =>
         some ⟨String.mk id.data, String.mk content.data, tags', src, String.mk createdAt.data⟩
       | _, _ => none) from rfl]
  rw [asStrings?_map]
  cases source <;> rfl

/-- Serialize-then-parse is the identity on Memory values: reading back
the blob `saveMemory` wrote recovers the exact record. -/
theorem parseMemoryString_serializeMemory (m : Memory) :
    parseMemoryString (serializeMemory m) = some m := by
  rw [parseMemoryString, jsonParse_serializeMemory, Option.some_bind, jsonToMemory?_memoryJson]

/-! ### Durable-store lemmas -/

theorem bucketGet_put_same (b : Bucket) (k : String) (v : StoredObject) :
    bucketGet (bucketPut b k v) k = some v := by
  simp [bucketGet, bucketPut, List.find?]

theorem bucketGet_delete_same (b : Bucket) (k : String) :
    bucketGet (bucketDelete b k) k = none := by
  have h0 : (bucketDelete b k).find? (fun p => p.1 == k) = none := by
    apply List.find?_eq_none.mpr
    intro p hp
    have := (List.mem_filter.mp hp).2
    simpa using this
  rw [bucketGet, h0]
  rfl

theorem bucketDelete_delete (b : Bucket) (k : String) :
    bucketDelete (bucketDelete b k) k = bucketDelete b k := by
  simp [bucketDelete, List.filter_filter]

theorem bucketDelete_of_get_none (b : Bucket) (k : String)
    (h : bucketGet b k = none) : bucketDelete b k = b := by
  have h0 : b.find? (fun p => p.1 == k) = none := by
    cases hf : b.find? (fun p => p.1 == k) with
    | none => rfl
    | some p => rw [bucketGet, hf] at h; simp at h
  have h2 : ∀ p ∈ b, p.1 ≠ k := by
    intro p hp
    have := List.find?_eq_none.mp h0 p hp
    simpa using this
  rw [bucketDelete, List.filter_eq_self.mpr]
  intro a ha
  simpa using h2 a ha

/-! ### Search-normalization lemmas -/

theorem foldl_push_eq_map (items : List SearchItem) (now : String) :
    ∀ acc, items.foldl (fun acc item => acc ++ [normalizeItem now item]) acc =
      acc ++ items.map (normalizeItem now) := by
  induction items with
  | nil => intro acc; simp
  | cons it items ih => intro acc; simp [ih]

/-! ### List-handler lemmas -/

theorem collectMemories_eq (bucket : Bucket) (keys : List String)
    (h : ∀ k ∈ keys, keyReadable bucket k = true) :
    collectMemories bucket keys =
      some (keys.filterMap
        (fun k => (bucketGet bucket k).bind (fun o => parseMemoryString o.body))) := by
  induction keys with
  | nil => rfl
  | cons k ks ih =>
    have hks : ∀ k' ∈ ks, keyReadable bucket k' = true := fun k' hk' => h k' (by simp [hk'])
    have hk := h k (by simp)
    rw [collectMemories]
    cases hg : bucketGet bucket k with
    | none => simp [hg, ih hks]
    | some obj =>
      have hk2 : (parseMemoryString obj.body).isSome = true := by
        simpa [keyReadable, hg] using hk
      cases hp : parseMemoryString obj.body with
      | none => rw [hp] at hk2; simp at hk2
      | some m => simp [hg, hp, ih hks]

/-! ### Operation-level helper lemmas -/

theorem triggerResync_env (env : Env) :
    (triggerResync env).2 = { env with trace := env.trace ++ [.resyncFetch] } := by
  unfold triggerResync
  dsimp only
  split <;> rfl

theorem saveMemory_fst (env : Env) (content : String) (tags : Option (List String))
    (source : Option Source) :
    (saveMemory env content tags source).1 =
      ⟨env.freshId, content, tags.getD [], source.getD .user, env.now⟩ := by
  unfold saveMemory
  simp [triggerResync_env]

theorem saveMemory_env (env : Env) (content : String) (tags : Option (List String))
    (source : Option Source) :
    (saveMemory env content tags source).2 = { env with
      bucket := bucketPut env.bucket (memoryKey env.freshId)
        (memoryObject ⟨env.freshId, content, tags.getD [], source.getD .user, env.now⟩)
      trace := env.trace ++ [.r2Put (memoryKey env.freshId), .resyncFetch] } := by
  unfold saveMemory
  rw [triggerResync_env]
  simp

theorem deleteMemories_env (env : Env) (id : String) :
    (deleteMemories env id).2 = { env with
      bucket := bucketDelete env.bucket (memoryKey id)
      trace := env.trace ++ [.r2Delete (memoryKey id), .resyncFetch] } := by
  unfold deleteMemories
  rw [triggerResync_env]
  simp

theorem deleteMemories_success (env : Env) (id : String) :
    (deleteMemories env id).1.success = true := rfl

theorem searchMemories_env (env : Env) (query : String) (limit : Int) :
    (searchMemories env query limit).2 = { env with
      trace := env.trace ++ [.aiSearch
        { query := query, max_num_results := min limit 50,
          rewrite_query := true, score_threshold := 1 / 10 }] } := rfl

theorem searchMemories_fst (env : Env) (query : String) (limit : Int) :
    (searchMemories env query limit).1 =
      env.searchResponse.data.map (normalizeItem env.now) := by
  unfold searchMemories
  dsimp only
  rw [foldl_push_eq_map]
  simp

/-! ### Claim theorems -/

/-- C3: `triggerResync` never throws for a provider-reported failure:
when the provider response has `success = false` it returns a rejected
result (no exception path exists for an interpreted response — the
function is total) carrying the first reported error message, or the
generic `"Unknown error"` fallback when the provider gives no error
detail (no `errors` array, an empty one, or an empty first message,
which is falsy in JS); when `success = true` it returns an accepted
result carrying the provider's job identifier. -/
theorem c3_trigger_resync_outcome (env : Env) :
    (env.resyncResponse.success = true →
      (triggerResync env).1 =
        { success := true, jobId := env.resyncResponse.result, error := none }) ∧
    (env.resyncResponse.success = false →
      (triggerResync env).1.success = false ∧ (triggerResync env).1.jobId = none ∧
      ((∃ msg rest, env.resyncResponse.errors = some (msg :: rest) ∧ msg ≠ "" ∧
          (triggerResync env).1.error = some msg) ∨
        ((triggerResync env).1.error = some "Unknown error" ∧
          (env.resyncResponse.errors = none ∨ env.resyncResponse.errors = some [] ∨
            ∃ rest, env.resyncResponse.errors = some ("" :: rest))))) := by
  constructor
  · intro h
    simp [triggerResync, h]
  · intro h
    refine ⟨by simp [triggerResync, h], by simp [triggerResync, h], ?_⟩
    rcases herr : env.resyncResponse.errors with _ | ⟨_ | ⟨msg, rest⟩⟩
    · exact Or.inr ⟨by simp [triggerResync, h, firstErrorMessage, herr], Or.inl rfl⟩
    · exact Or.inr ⟨by simp [triggerResync, h, firstErrorMessage, herr], Or.inr (Or.inl rfl)⟩
    · by_cases hm : msg = ""
      · subst hm
        exact Or.inr ⟨by simp [triggerResync, h, firstErrorMessage, herr],
          Or.inr (Or.inr ⟨rest, rfl⟩)⟩
      · exact Or.inl ⟨msg, rest, rfl, hm,
          by simp [triggerResync, h, firstErrorMessage, herr, hm]⟩

/-- Witness for C3 at a concrete rejected response carrying `"boom"`. -/
theorem c3_witness :
    (triggerResync envRej).1.success = false ∧ (triggerResync envRej).1.error = some "boom" := by
  have h := (c3_trigger_resync_outcome envRej).2 rfl
  exact ⟨h.1, by rfl⟩

/-- C5: delete is idempotent: every delete reports success, the first
call removes the record (a subsequent store read misses), a second
delete leaves the store unchanged and still succeeds, and deleting a
never-existing id leaves the store untouched. -/
theorem c5_delete_idempotent (env : Env) (id : String) :
    (deleteMemories env id).1.success = true ∧
    (deleteMemories (deleteMemories env id).2 id).1.success = true ∧
    bucketGet (deleteMemories env id).2.bucket (memoryKey id) = none ∧
    (deleteMemories (deleteMemories env id).2 id).2.bucket = (deleteMemories env id).2.bucket ∧
    (bucketGet env.bucket (memoryKey id) = none →
      (deleteMemories env id).2.bucket = env.bucket) := by
  refine ⟨rfl, rfl, ?_, ?_, ?_⟩
  · rw [deleteMemories_env]
    exact bucketGet_delete_same env.bucket (memoryKey id)
  · rw [deleteMemories_env, deleteMemories_env]
    simp [bucketDelete_delete]
  · intro h
    rw [deleteMemories_env]
    simp [bucketDelete_of_get_none env.bucket (memoryKey id) h]

/-- Witness for C5: concrete double delete of a never-stored id. -/
theorem c5_witness :
    (deleteMemories env0 "x").1.success = true ∧
    (deleteMemories env0 "x").2.bucket = env0.bucket := by
  have h := c5_delete_idempotent env0 "x"
  exact ⟨h.1, h.2.2.2.2 (by rfl)⟩

/-- C10: `searchMemories` returns exactly one normalized entry per
provider result item, in the provider's order, each carrying that item's
relevance score unchanged. -/
theorem c10_search_one_per_item (env : Env) (q : String) (lim : Int) :
    (searchMemories env q lim).1 = env.searchResponse.data.map (normalizeItem env.now) ∧
    (searchMemories env q lim).1.length = env.searchResponse.data.length ∧
    (searchMemories env q lim).1.map (fun sm => sm.score) =
      env.searchResponse.data.map (fun item => item.score) := by
  refine ⟨searchMemories_fst env q lim, ?_, ?_⟩
  · rw [searchMemories_fst]
    simp
  · rw [searchMemories_fst]
    simp only [List.map_map]
    apply List.map_congr_left
    intro item _
    simp only [Function.comp_apply, normalizeItem]
    cases h : parseMemoryString (itemText item) <;> simp [h]

/-- C6: a create with empty or missing content and a search with empty
or missing query are rejected immediately on both surfaces — the REST
handlers answer the 400 validation error, the MCP tools an error tool
result — and the environment (bucket and call trace) is returned
untouched: no durable-store or search-provider call is attempted. -/
theorem c6_validation_rejects_without_effects (env : Env)
    (tags : Option (List String)) (source : Option Source)
    (c q : Option String) (lim : Option Int)
    (hc : c = none ∨ c = some "") (hq : q = none ∨ q = some "") :
    postMemories env ⟨c, tags, source⟩ =
      (.validationError ("content is required and must be a string"), env) ∧
    mcpSaveMemory env ⟨c, tags, source⟩ =
      ({ text := "Error: content is required", isError := true }, env) ∧
    getMemoriesSearch env q lim =
      (.validationError ("Query parameter q is required"), env) ∧
    mcpSearchMemories env ⟨q, lim⟩ =
      ({ text := "Error: query is required", isError := true }, env) := by
  rcases hc with rfl | rfl <;> rcases hq with rfl | rfl <;>
    exact ⟨rfl, rfl, rfl, rfl⟩

/-- Witness for C6 at missing content and missing query. -/
theorem c6_witness :
    postMemories env0 ⟨none, none, none⟩ =
      (.validationError ("content is required and must be a string"), env0) ∧
    mcpSearchMemories env0 ⟨none, none⟩ =
      ({ text := "Error: query is required", isError := true }, env0) := by
  have h := c6_validation_rejects_without_effects env0 none none none none none
    (Or.inl rfl) (Or.inl rfl)
  exact ⟨h.1, h.2.2.2⟩

/-- C7 counterexample: the claim "for every search call the result count
requested from the provider is the caller's limit capped at 50" fails on
the MCP surface: a `search_memories` call with limit 0 requests 5
results from the provider (the code coerces the falsy 0 with
`(toolArgs?.limit as number) || 5`), while min 0 50 = 0. -/
theorem c7_counterexample :
    (mcpSearchMemories env0 ⟨some "q", some 0⟩).2.trace =
      [Effect.aiSearch (searchReq "q" (5))] ∧
    ¬ (5 : Int) = min 0 50 := by
  constructor
  · rfl
  · decide

/-- C7 amended: on the REST surface the requested count is exactly
min(limit, 50) with default 5 when the parameter is absent; on the MCP
surface the same holds for every nonzero limit, while a limit of 0
(falsy in JS) and a missing limit both fall back to the default 5. -/
theorem c7_limit_cap_and_default (env : Env) (q : String) (lim l : Int)
    (hq : q ≠ "") (hl : l ≠ 0) :
    (getMemoriesSearch env (some q) (some lim)).2.trace =
      env.trace ++ [Effect.aiSearch (searchReq q (min lim 50))] ∧
    (getMemoriesSearch env (some q) none).2.trace =
      env.trace ++ [Effect.aiSearch (searchReq q (min 5 50))] ∧
    (mcpSearchMemories env ⟨some q, some l⟩).2.trace =
      env.trace ++ [Effect.aiSearch (searchReq q (min l 50))] ∧
    (mcpSearchMemories env ⟨some q, some 0⟩).2.trace =
      env.trace ++ [Effect.aiSearch (searchReq q (5))] ∧
    (mcpSearchMemories env ⟨some q, none⟩).2.trace =
      env.trace ++ [Effect.aiSearch (searchReq q (5))] := by
  have hmin : min (5 : Int) 50 = 5 := by decide
  refine ⟨?_, ?_, ?_, ?_, ?_⟩
  · unfold getMemoriesSearch
    dsimp only
    rw [if_neg hq]
    simp [searchMemories_env, searchReq]
  · unfold getMemoriesSearch
    dsimp only
    rw [if_neg hq]
    simp [searchMemories_env, searchReq, hmin]
  · unfold mcpSearchMemories
    dsimp only
    rw [if_neg hq, if_neg hl]
    by_cases hz : (searchMemories env q l).1.length = 0 <;>
      simp [hz, searchMemories_env, searchReq]
  · unfold mcpSearchMemories
    dsimp only
    rw [if_neg hq, if_pos rfl]
    by_cases hz : (searchMemories env q 5).1.length = 0 <;>
      simp [hz, searchMemories_env, searchReq, hmin]
  · unfold mcpSearchMemories
    dsimp only
    rw [if_neg hq]
    by_cases hz : (searchMemories env q 5).1.length = 0 <;>
      simp [hz, searchMemories_env, searchReq, hmin]

/-- Witness for C7 (amended) at a concrete query and limits. -/
theorem c7_witness :
    (getMemoriesSearch env0 (some "tabs") (some 80)).2.trace =
      [Effect.aiSearch (searchReq "tabs" (50))] := by
  have h := (c7_limit_cap_and_default env0 "tabs" 80 3
    (by decide) (by decide)).1
  simpa using h

/-- C8: the REST and MCP creation surfaces behave identically: for equal
content, tags and source (over all present/absent combinations, so the
same `[]` and `'user'` defaults apply) they reject exactly the same
inputs, and they leave behind exactly the same environment — the same
stored record under the same key and the same store/provider call trace. -/
theorem c8_rest_mcp_create_agree (env : Env) (content : Option String)
    (tags : Option (List String)) (source : Option Source) :
    (postMemories env ⟨content, tags, source⟩).1.isValidationError =
      (mcpSaveMemory env ⟨content, tags, source⟩).1.isError ∧
    (postMemories env ⟨content, tags, source⟩).2 =
      (mcpSaveMemory env ⟨content, tags, source⟩).2 := by
  cases content with
  | none => exact ⟨rfl, rfl⟩
  | some c =>
    by_cases hc : c = ""
    · subst hc
      exact ⟨rfl, rfl⟩
    · unfold postMemories mcpSaveMemory
      dsimp only
      rw [if_neg hc, if_neg hc]
      refine ⟨rfl, ?_⟩
      rw [saveMemory_env, saveMemory_env]
      simp

/-- C1: when the provider rejects the reindex requested after the
durable write, the create still succeeds: the handler's response is the
Memory, the blob is durably stored under its derived key, the record is
retrievable by id (read back and decoded to the identical Memory), the
write precedes the resync attempt in the call trace, and the response
and stored state are unaffected by the resync outcome. -/
theorem c1_create_survives_resync_rejection (env : Env) (content : String)
    (tags : Option (List String)) (source : Option Source)
    (hc : content ≠ "") (_hfail : env.resyncResponse.success = false) :
    (postMemories env ⟨some content, tags, source⟩).1 =
      .ok ⟨env.freshId, content, tags.getD [], source.getD .user, env.now⟩ ∧
    bucketGet (postMemories env ⟨some content, tags, source⟩).2.bucket (memoryKey env.freshId) =
      some (memoryObject ⟨env.freshId, content, tags.getD [], source.getD .user, env.now⟩) ∧
    getMemoryById (postMemories env ⟨some content, tags, source⟩).2 env.freshId =
      some ⟨env.freshId, content, tags.getD [], source.getD .user, env.now⟩ ∧
    (postMemories env ⟨some content, tags, source⟩).2.trace =
      env.trace ++ [.r2Put (memoryKey env.freshId), .resyncFetch] ∧
    (∀ r : ResyncApiResponse,
      (postMemories { env with resyncResponse := r } ⟨some content, tags, source⟩).1 =
        (postMemories env ⟨some content, tags, source⟩).1 ∧
      (postMemories { env with resyncResponse := r } ⟨some content, tags, source⟩).2.bucket =
        (postMemories env ⟨some content, tags, source⟩).2.bucket) := by
  have hpost : ∀ env' : Env, postMemories env' ⟨some content, tags, source⟩ =
      (.ok (saveMemory env' content tags source).1, (saveMemory env' content tags source).2) := by
    intro env'
    unfold postMemories
    dsimp only
    rw [if_neg hc]
  refine ⟨?_, ?_, ?_, ?_, ?_⟩
  · rw [hpost, saveMemory_fst]
  · rw [hpost, saveMemory_env]
    exact bucketGet_put_same _ _ _
  · rw [hpost]
    unfold getMemoryById
    rw [saveMemory_env]
    dsimp only
    rw [bucketGet_put_same]
    simp [memoryObject, parseMemoryString_serializeMemory]
  · rw [hpost, saveMemory_env]
  · intro r
    constructor
    · rw [hpost, hpost, saveMemory_fst, saveMemory_fst]
    · rw [hpost, hpost, saveMemory_env, saveMemory_env]

/-- Witness for C1: a concrete create against the rejecting provider. -/
theorem c1_witness :
    (postMemories envRej ⟨some "Always use tabs", some ["style"], none⟩).1 =
      .ok ⟨"id-1", "Always use tabs", ["style"], .user, "2024-01-02T03:04:05.678Z"⟩ ∧
    getMemoryById (postMemories envRej ⟨some "Always use tabs", some ["style"], none⟩).2 "id-1" =
      some ⟨"id-1", "Always use tabs", ["style"], .user, "2024-01-02T03:04:05.678Z"⟩ := by
  have h := c1_create_survives_resync_rejection envRej "Always use tabs" (some ["style"]) none
    (by decide) rfl
  exact ⟨h.1, h.2.2.1⟩

/-- C4: round-trip of create: for valid content, fetching the stored
record by the returned id (store get plus JSON decode) recovers a record
whose content, tags and source equal the inputs; serialize-then-parse of
the stored blob is the identity on the Memory; and `createdAt` is the
creation-time clock reading, so under the clock's guarantees (a valid
ISO timestamp no later than any later fetch-time reading) the fetched
`createdAt` is a valid timestamp no later than the time of fetch. -/
theorem c4_create_roundtrip (env : Env) (content : String) (tags : Option (List String))
    (source : Option Source) (tFetch : String)
    (_hc : content ≠ "") (hnow : isIsoTimestamp env.now = true) (hle : env.now ≤ tFetch) :
    parseMemoryString (serializeMemory (saveMemory env content tags source).1) =
      some (saveMemory env content tags source).1 ∧
    getMemoryById (saveMemory env content tags source).2
        (saveMemory env content tags source).1.id =
      some (saveMemory env content tags source).1 ∧
    (saveMemory env content tags source).1.content = content ∧
    (saveMemory env content tags source).1.tags = tags.getD [] ∧
    (saveMemory env content tags source).1.source = source.getD .user ∧
    isIsoTimestamp (saveMemory env content tags source).1.createdAt = true ∧
    (saveMemory env content tags source).1.createdAt ≤ tFetch := by
  refine ⟨parseMemoryString_serializeMemory _, ?_, ?_, ?_, ?_, ?_, ?_⟩
  · unfold getMemoryById
    rw [saveMemory_env, saveMemory_fst]
    dsimp only
    rw [bucketGet_put_same]
    simp [memoryObject, parseMemoryString_serializeMemory]
  · rw [saveMemory_fst]
  · rw [saveMemory_fst]
  · rw [saveMemory_fst]
  · rw [saveMemory_fst]
    exact hnow
  · rw [saveMemory_fst]
    exact hle

/-- Witness for C4 at a concrete environment, fetching at the creation
instant itself. -/
theorem c4_witness :
    getMemoryById (saveMemory env0 "Always use tabs" (some ["style"]) none).2
        (saveMemory env0 "Always use tabs" (some ["style"]) none).1.id =
      some (saveMemory env0 "Always use tabs" (some ["style"]) none).1 ∧
    (saveMemory env0 "Always use tabs" (some ["style"]) none).1.content = "Always use tabs" := by
  have h := c4_create_roundtrip env0 "Always use tabs" (some ["style"]) none env0.now
    (by decide) (by decide) (le_refl _)
  exact ⟨h.2.1, h.2.2.1⟩

/-- C2: the normalizer concatenates the text-typed chunks in order
joined by newline (`itemText`); when that text is exactly a serialized
Memory it emits that Memory's id, content, tags and source with the
item's score attached; when `JSON.parse` fails on it, it emits the
synthetic record — provider file id, the raw concatenated text, no
tags, source `auto`, the current time — with the score attached.  The
normalizer is a total function of the item, so no provider payload makes
it raise. -/
theorem c2_normalizer_cases (now : String) (item : SearchItem) (m : Memory) :
    (itemText item = serializeMemory m →
      normalizeItem now item =
        ⟨m.id, m.content, m.tags, m.source, m.createdAt, item.score⟩) ∧
    (jsonParse (itemText item) = none →
      normalizeItem now item =
        ⟨item.file_id, itemText item, [], .auto, now, item.score⟩) := by
  constructor
  · intro h
    simp [normalizeItem, h, parseMemoryString_serializeMemory]
  · intro h
    have hp : parseMemoryString (itemText item) = none := by
      rw [parseMemoryString, h]
      rfl
    simp [normalizeItem, hp]

set_option maxRecDepth 10000 in
/-- Witness for C2: `item1`'s chunks (two text chunks split across the
blob's first newline, with a non-text chunk between them) reassemble the
serialized `mem0` and are recovered exactly; `item2`'s plain text falls
back to the synthetic record. -/
theorem c2_witness :
    normalizeItem "2024-03-04T05:06:07.890Z" item1 =
      ⟨"id-1", "Always use tabs", ["style"], .user, "2024-01-02T03:04:05.678Z", 41 / 50⟩ ∧
    normalizeItem "2024-03-04T05:06:07.890Z" item2 =
      ⟨"file-2", "hello world", [], .auto, "2024-03-04T05:06:07.890Z", 1 / 2⟩ := by
  constructor
  · exact (c2_normalizer_cases "2024-03-04T05:06:07.890Z" item1 mem0).1 (by decide)
  · exact (c2_normalizer_cases "2024-03-04T05:06:07.890Z" item2 mem0).2 (by rfl)

/-- C9: the list handler never fails because a record disappeared
between the key listing and the per-key read: under the sole assumption
that every blob actually found decodes (all stored blobs are serialized
Memories), the collection succeeds, equals the reads that hit —
listed keys whose read misses are silently omitted — and therefore
returns at most as many memories as listed keys; the handler wraps this
result with the pagination cursor. -/
theorem c9_list_skips_missing (bucket : Bucket) (keys : List String)
    (h : ∀ k ∈ keys, keyReadable bucket k = true) :
    ∃ ms, collectMemories bucket keys = some ms ∧
      ms = keys.filterMap
        (fun k => (bucketGet bucket k).bind (fun o => parseMemoryString o.body)) ∧
      ms.length ≤ keys.length ∧
      ∀ listed : ListedObjects, listed.keys = keys →
        getMemories bucket listed =
          some ⟨ms, if listed.truncated then listed.cursor else none⟩ := by
  refine ⟨_, collectMemories_eq bucket keys h, rfl, ?_, ?_⟩
  · exact List.length_filterMap_le _ _
  · intro listed hl
    rw [getMemories, hl, collectMemories_eq bucket keys h]
    rfl

set_option maxRecDepth 10000 in
/-- Witness for C9: a two-key listing over a bucket holding only the
first key — the missing key is skipped, one memory is returned. -/
theorem c9_witness :
    collectMemories bucket1 [memoryKey "id-1", memoryKey "gone"] = some [mem0] := by
  obtain ⟨ms, hms, heq, -, -⟩ :=
    c9_list_skips_missing bucket1 [memoryKey "id-1", memoryKey "gone"] (by decide)
  have hval : ms = [mem0] := by
    rw [heq]
    decide
  rw [hms, hval]
